import Mathlib

/-!
Verification development for the docker-builder job-orchestration frontend.

The definitions below are shallow embeddings of the JavaScript source:
* `parseProgressFromLogs` — `src/unnamed/part_002` / `part_006`, lines 12–24;
* `estimateProgress` — `src/unnamed/part_002` lines 115–127 (`part_006` 110–122);
* `validateTag`, `generateTag`, `submit`'s tag selection —
  `src/frontend/src/components/ServicesImages.jsx` lines 381–429;
* the job-list sort comparator — `src/unnamed/part_001` lines 157–168
  (`Jobs.load`);
* `reenqueue_all` — modelled from the spec (the backend is not in the
  source tree).

JavaScript strings are modelled as `List Char`/`String`, JS numbers that
hold integers as `Nat`/`Int`, and `undefined`/`null` fields as `Option`.
-/

namespace DockerBuilder

/-- A raw log-array entry as delivered by the API: the JS code guards with
`typeof ln === 'string'`, so an entry is either a string or some other
JS value (number, object, `null`, …), which we collapse to `.other`. -/
inductive LogEntry where
  | str (s : String)
  | other
  deriving DecidableEq, Repr

/-- ASCII decimal digit test, the `\d` character class of the JS regexes. -/
def isDigitCh (c : Char) : Bool := '0' ≤ c && c ≤ '9'

/-- Numeric value of a decimal digit character. -/
def digitVal (c : Char) : Nat := c.toNat - '0'.toNat

/-- Value of a digit string (most significant first). -/
def digitsToNat (l : List Char) : Nat :=
  l.foldl (fun acc c => acc * 10 + digitVal c) 0

/-- Greedily take at most `k` leading decimal digits, as the bounded
quantifier `\d{1,3}` does after its match point is fixed. -/
def takeDigits : Nat → List Char → List Char
  | 0, _ => []
  | _, [] => []
  | k + 1, c :: rest => if isDigitCh c then c :: takeDigits k rest else []

/-- Try to match `PROGRESS:(\d{1,3})` at the head of the character list:
requires the literal `PROGRESS:` followed by at least one digit, and
captures up to three digits greedily. Returns the captured value. -/
def matchMarkerAt (l : List Char) : Option Nat :=
  let pre := "PROGRESS:".toList
  if pre.isPrefixOf l then
    let rest := l.drop pre.length
    let ds := takeDigits 3 rest
    if ds.isEmpty then none else some (digitsToNat ds)
  else none

/-- `ln.match(/PROGRESS:(\d{1,3})/)`: leftmost match wins, scanning the
line left to right. -/
def findMarker : List Char → Option Nat
  | [] => none
  | c :: rest =>
    match matchMarkerAt (c :: rest) with
    | some v => some v
    | none => findMarker rest

/-- The marker value of one log entry: non-string entries never match. -/
def lineMarker : LogEntry → Option Nat
  | .str s => findMarker s.toList
  | .other => none

/-- `Math.max(0, Math.min(100, v))` for a non-negative `v`. -/
def clamp100 (v : Nat) : Nat := max 0 (min 100 v)

/-- The backward scan of the JS `for` loop, phrased as a forward scan of
the reversed log list: return the clamped value of the first entry
carrying a marker. -/
def scanRev : List LogEntry → Option Nat
  | [] => none
  | e :: rest =>
    match lineMarker e with
    | some v => some (clamp100 v)
    | none => scanRev rest

/-- `parseProgressFromLogs` (src/unnamed/part_002 lines 12–24): `null` for
an empty/missing array, otherwise scan from the last line backward for
`PROGRESS:(\d{1,3})`, parse the capture and clamp to `[0,100]`. -/
def parseProgressFromLogs (logs : List LogEntry) : Option Nat :=
  if logs.isEmpty then none
  else scanRev logs.reverse

/-- A job as consumed by the `Queue` component's `estimateProgress`
(src/unnamed/part_002 lines 115–127): an optional pre-computed `progress`
field, an optional `state` string and an optional `logs` array. -/
structure QJob where
  progress : Option Nat
  state : Option String
  logs : Option (List LogEntry)

/-- `job.state || 'queued'`: a missing state and the empty string are both
falsy in JS and default to `"queued"`. -/
def jsStateOr (s : Option String) : String :=
  match s with
  | some t => if t = "" then "queued" else t
  | none => "queued"

/-- `(job.logs && job.logs.length) || 0`: a missing `logs` yields 0; an
array yields its length (an empty array is truthy in JS but its length is
0, which `|| 0` maps to 0 again). -/
def jsLogCount (l : Option (List LogEntry)) : Nat :=
  (l.map List.length).getD 0

/-- `estimateProgress` (src/unnamed/part_002 lines 115–127): prefer the
enriched `progress` field when present; otherwise fall back to the
state-based heuristic. -/
def estimateProgress (job : QJob) : Nat :=
  match job.progress with
  | some p => p
  | none =>
    let state := jsStateOr job.state
    if state = "queued" then 5
    else if state = "running" then min 95 (5 + jsLogCount job.logs * 2)
    else if state = "done" then 100
    else if state = "error" then 100
    else 0

/-- The displayed estimate for a job as enriched by the list loader
(src/unnamed/part_002 lines 64–67): `progress` is set from
`parseProgressFromLogs(j.logs)` before `estimateProgress` runs. -/
def enrichedEstimate (state : Option String) (logs : List LogEntry) : Nat :=
  estimateProgress ⟨parseProgressFromLogs logs, state, some logs⟩

/-! ### Tag validation and auto-generation (ServicesImages.jsx) -/

/-- The JS `String.prototype.trim` whitespace set (WhiteSpace and
LineTerminator code points of the ECMAScript spec). -/
def isJsWhitespace (c : Char) : Bool :=
  c = ' ' || c = '\t' || c = '\n' || c = '\r' || c = '\u000B' || c = '\u000C' ||
  c = '\u00A0' || c = '\uFEFF' || c = '\u1680' || c = '\u2000' ||
  c = '\u2001' || c = '\u2002' || c = '\u2003' || c = '\u2004' ||
  c = '\u2005' || c = '\u2006' || c = '\u2007' || c = '\u2008' ||
  c = '\u2009' || c = '\u200A' || c = '\u2028' || c = '\u2029' ||
  c = '\u202F' || c = '\u205F' || c = '\u3000'

/-- `raw.trim()`: strip leading and trailing JS whitespace. -/
def jsTrim (s : String) : String :=
  String.mk (((s.data.dropWhile isJsWhitespace).reverse.dropWhile
    isJsWhitespace).reverse)

/-- The character class `[A-Za-z0-9_]` (first character of the tag regex). -/
def isTagHeadCh (c : Char) : Bool :=
  ('A' ≤ c && c ≤ 'Z') || ('a' ≤ c && c ≤ 'z') || ('0' ≤ c && c ≤ '9') ||
  c = '_'

/-- The character class `[A-Za-z0-9_.-]` (subsequent characters). -/
def isTagCh (c : Char) : Bool := isTagHeadCh c || c = '.' || c = '-'

/-- `/^[A-Za-z0-9_][A-Za-z0-9_.-]*$/.test(t)`. -/
def tagRegexTest (s : String) : Bool :=
  match s.data with
  | [] => false
  | c :: rest => isTagHeadCh c && rest.all isTagCh

/-- `validateTag` (ServicesImages.jsx lines 393–399): trim the raw input;
an empty result is accepted with value `""` (auto-generation will kick
in); otherwise accept iff the trimmed value has at most 128 characters
and matches the tag regex. -/
def validateTag (raw : String) : Bool × String :=
  let t := jsTrim raw
  if t.length = 0 then (true, "")
  else (decide (t.length ≤ 128) && tagRegexTest t, t)

/-- Decimal digit character for `n ≤ 9` (`String(n)` digit). -/
def digitChar (n : Nat) : Char := Char.ofNat (48 + n)

/-- The decimal representation `String(n)` of a non-negative integer,
most significant digit first. -/
def natDigits (n : Nat) : List Char :=
  if h : n < 10 then [digitChar n]
  else natDigits (n / 10) ++ [digitChar (n % 10)]
termination_by n
decreasing_by exact Nat.div_lt_self (by omega) (by omega)

/-- `String(n)` as a Lean string. -/
def natToString (n : Nat) : String := String.mk (natDigits n)

/-- `String(n).padStart(2, '0')`. -/
def pad2 (n : Nat) : String :=
  String.mk (List.replicate (2 - (natDigits n).length) '0' ++ natDigits n)

/-- The UTC components read off a JS `Date`: `getUTCFullYear`,
`getUTCMonth` (0–11), `getUTCDate` (1–31), `getUTCHours`, `getUTCMinutes`,
`getUTCSeconds`. -/
structure UTCTime where
  fullYear : Nat
  month0 : Nat
  date : Nat
  hours : Nat
  minutes : Nat
  seconds : Nat

/-- `generateTag` (ServicesImages.jsx lines 381–391):
`` `${y}${m}${day}-${hh}${mm}${ss}` `` with the month/day/time components
zero-padded to two characters and the year unpadded. -/
def generateTag (d : UTCTime) : String :=
  natToString d.fullYear ++ pad2 (d.month0 + 1) ++ pad2 d.date ++ "-" ++
  pad2 d.hours ++ pad2 d.minutes ++ pad2 d.seconds

/-- The tag a submission ends up with (`submit`, ServicesImages.jsx lines
416–429): `none` when validation rejects (no job is created); otherwise
the trimmed tag, or `generateTag` when the trimmed tag is blank
(`tagTrimmed || generateTag()`). -/
def submitFinalTag (tag : String) (d : UTCTime) : Option String :=
  let r := validateTag tag
  if r.1 then some (if r.2 = "" then generateTag d else r.2) else none

/-- `/^\d{8}-\d{6}$/` on a character list. -/
def matchesTimestampTagL (l : List Char) : Bool :=
  decide (l.length = 15) && (l.take 8).all isDigitCh &&
  decide ((l.drop 8).head? = some '-') && (l.drop 9).all isDigitCh

/-- `/^\d{8}-\d{6}$/.test(s)`. -/
def matchesTimestampTag (s : String) : Bool := matchesTimestampTagL s.data

/-! ### Job-list sorting (src/unnamed/part_001, Jobs.load) -/

/-- A job as consumed by the `Jobs` list comparator: only `state` and
`timestamp` take part in the ordering. -/
structure JobView where
  state : Option String
  timestamp : Option Int
  deriving DecidableEq

/-- `stateOrder[a.state] ?? 4`: the lookup in
`{ running: 0, queued: 1, done: 2, error: 3 }` with default 4 for any
other (or missing) state. -/
def stateOrder (s : Option String) : Nat :=
  match s with
  | some t =>
    if t = "running" then 0
    else if t = "queued" then 1
    else if t = "done" then 2
    else if t = "error" then 3
    else 4
  | none => 4

/-- `t || 0`: a missing timestamp is falsy and is treated as 0 (a stored
0 also maps to 0). -/
def tsVal (t : Option Int) : Int := t.getD 0

/-- The comparator of `Jobs.load` (src/unnamed/part_001 lines 157–168):
`stateA - stateB` when the priorities differ, otherwise
`(b.timestamp||0) - (a.timestamp||0)` so that newer jobs come first. -/
def jsCompare (a b : JobView) : Int :=
  if stateOrder a.state ≠ stateOrder b.state then
    (stateOrder a.state : Int) - (stateOrder b.state : Int)
  else tsVal b.timestamp - tsVal a.timestamp

/-- `[...r.data].sort(comparator)`: a stable sort placing `a` before `b`
whenever `comparator(a,b) ≤ 0`. -/
def sortJobs (l : List JobView) : List JobView :=
  l.mergeSort (fun a b => decide (jsCompare a b ≤ 0))

/-- Own property names of `Object.prototype` (ES2023 §20.2.3): looking
any of these up on a plain object literal such as `stateOrder` finds the
inherited member, which is non-nullish, so the `?? 4` default never
fires for them. -/
def objectProtoMember (s : String) : Bool :=
  s = "constructor" || s = "hasOwnProperty" || s = "isPrototypeOf" ||
  s = "propertyIsEnumerable" || s = "toLocaleString" || s = "toString" ||
  s = "valueOf" || s = "__proto__" || s = "__defineGetter__" ||
  s = "__defineSetter__" || s = "__lookupGetter__" || s = "__lookupSetter__"

/-- The JS value of `stateOrder[state] ?? 4` over the full string domain:
a number for an own key (or for the `undefined`-defaulted case), or the
inherited `Object.prototype` member — identified by its name, since two
lookups of the same name return the identical object. -/
inductive JsPriority where
  | num (n : Nat)
  | inherited (member : String)
  deriving DecidableEq, Repr

/-- `stateOrder[a.state] ?? 4` with prototype-chain lookup: own keys give
their numbers, an `Object.prototype` member name gives the inherited
member (the `?? 4` does not fire), and only genuinely absent keys
(lookup `undefined`) default to 4. -/
def statePriorityJs (s : Option String) : JsPriority :=
  match s with
  | some t =>
    if t = "running" then .num 0
    else if t = "queued" then .num 1
    else if t = "done" then .num 2
    else if t = "error" then .num 3
    else if objectProtoMember t then .inherited t
    else .num 4
  | none => .num 4

/-- The `Jobs.load` comparator over the full string domain: the
subtraction is a number only when both priorities are numbers, or when
both states name the very same inherited member (then `!==` is false and
the timestamp branch runs); any mixed or distinct-member case subtracts
a non-number, yielding `NaN`, which `Array.prototype.sort` treats as
`+0` — the pair compares as equal. -/
def jsCompareFull (a b : JobView) : Int :=
  match statePriorityJs a.state, statePriorityJs b.state with
  | .num sa, .num sb =>
    if sa ≠ sb then (sa : Int) - (sb : Int)
    else tsVal b.timestamp - tsVal a.timestamp
  | .inherited ma, .inherited mb =>
    if ma ≠ mb then 0
    else tsVal b.timestamp - tsVal a.timestamp
  | _, _ => 0

/-! ### Re-enqueue Controller (modelled from the spec) -/

/-- Job states of the orchestration core (spec §3). -/
inductive JState where
  | queued
  | running
  | done
  | error
  deriving DecidableEq, Repr

/-- Modelled from the spec: the Re-enqueue Controller's view of one job
(spec §4.5). The backend implementing the controller is not in the source
tree; `stalled` models the design's staleness detection for `running`
jobs ("no log line appended within a timeout window"). -/
structure RJob where
  id : Nat
  state : JState
  stalled : Bool
  deriving DecidableEq, Repr

/-- Modelled from the spec: eligibility for restart — jobs in `error` or
`running`-but-stalled are eligible (spec §4.5). -/
def eligible (j : RJob) : Bool :=
  j.state = JState.error || (j.state = JState.running && j.stalled)

/-- Per-job outcome of a re-enqueue attempt. -/
inductive ReenqueueOutcome where
  | requeued
  | skipped (reason : String)
  | errored (err : String)
  deriving DecidableEq, Repr

/-- Modelled from the spec: `reenqueue_one` — eligible jobs are reset and
resubmitted via the Queue Adapter `enq` (an error is recorded when that
fails); `done` and `queued` jobs are skipped with distinct explicit
reasons; non-stalled `running` jobs are likewise skipped (spec §4.5). -/
def reenqueue_one (enq : Nat → Bool) (j : RJob) : ReenqueueOutcome :=
  if eligible j then
    if enq j.id then .requeued else .errored "enqueue failed"
  else if j.state = JState.done then .skipped "job already done"
  else if j.state = JState.queued then .skipped "job already queued"
  else .skipped "job still running"

/-- The aggregate result shape
`{count:{found,requeued,skipped,errors}, requeued:[...], skipped:[...],
errors:[...]}` of `POST /queue/reenqueue` (spec §6). -/
structure ReenqueueResult where
  found : Nat
  requeued : List Nat
  skipped : List (Nat × String)
  errors : List (Nat × String)
  deriving DecidableEq, Repr

/-- Modelled from the spec: `reenqueue_all` — apply the eligibility check
to every job of `list()` independently (best-effort, non-atomic: each
job's outcome depends only on that job) and partition the outcomes
(spec §4.5). -/
def reenqueue_all (enq : Nat → Bool) (jobs : List RJob) : ReenqueueResult :=
  { found := jobs.length
    requeued := jobs.filterMap fun j =>
      match reenqueue_one enq j with
      | .requeued => some j.id
      | _ => none
    skipped := jobs.filterMap fun j =>
      match reenqueue_one enq j with
      | .skipped r => some (j.id, r)
      | _ => none
    errors := jobs.filterMap fun j =>
      match reenqueue_one enq j with
      | .errored e => some (j.id, e)
      | _ => none }

/-! ### Lemmas about the marker scan -/

theorem scanRev_append_of_none (l1 l2 : List LogEntry)
    (h : ∀ e ∈ l1, lineMarker e = none) :
    scanRev (l1 ++ l2) = scanRev l2 := by
  induction l1 with
  | nil => rfl
  | cons e rest ih =>
    have he : lineMarker e = none := h e (by simp)
    simp only [List.cons_append, scanRev, he]
    exact ih (fun x hx => h x (by simp [hx]))

theorem scanRev_eq_none_iff (l : List LogEntry) :
    scanRev l = none ↔ ∀ e ∈ l, lineMarker e = none := by
  induction l with
  | nil => simp [scanRev]
  | cons e rest ih =>
    cases he : lineMarker e with
    | some v => simp [scanRev, he]
    | none => simp [scanRev, he, ih]

theorem scanRev_skip_other (l1 l2 : List LogEntry) :
    scanRev (l1 ++ LogEntry.other :: l2) = scanRev (l1 ++ l2) := by
  induction l1 with
  | nil => simp [scanRev, lineMarker]
  | cons e rest ih =>
    cases he : lineMarker e with
    | some v => simp [scanRev, he]
    | none => simp [scanRev, he, ih]

theorem scanRev_le_100 (l : List LogEntry) (v : Nat)
    (h : scanRev l = some v) : v ≤ 100 := by
  induction l with
  | nil => simp [scanRev] at h
  | cons e rest ih =>
    cases he : lineMarker e with
    | some w =>
      simp only [scanRev, he] at h
      have : clamp100 w = v := by injection h
      subst this
      simp [clamp100]
    | none =>
      simp only [scanRev, he] at h
      exact ih h

theorem parseProgressFromLogs_eq_none_iff (logs : List LogEntry) :
    parseProgressFromLogs logs = none ↔ ∀ e ∈ logs, lineMarker e = none := by
  unfold parseProgressFromLogs
  cases logs with
  | nil => simp
  | cons e rest =>
    rw [if_neg (by simp)]
    rw [scanRev_eq_none_iff]
    constructor
    · intro h x hx
      exact h x (by rwa [List.mem_reverse])
    · intro h x hx
      exact h x (by rwa [List.mem_reverse] at hx)

/-! ### Claims about the Progress Extractor -/

/-- Claim C1: the Progress Extractor scans backward and returns the clamped
integer of the latest marker line, ignoring non-marker lines; on
`["a","PROGRESS:10","b","PROGRESS:87","c"]` it returns 87. -/
theorem C1_latest_marker_wins (pre suf : List LogEntry) (e : LogEntry) (v : Nat)
    (hm : lineMarker e = some v) (hs : ∀ x ∈ suf, lineMarker x = none) :
    parseProgressFromLogs (pre ++ e :: suf) = some (clamp100 v) ∧
    parseProgressFromLogs
      [.str "a", .str "PROGRESS:10", .str "b", .str "PROGRESS:87", .str "c"]
      = some 87 := by
  refine ⟨?_, by decide⟩
  unfold parseProgressFromLogs
  rw [if_neg (by simp)]
  rw [List.reverse_append, List.reverse_cons]
  rw [List.append_assoc]
  rw [scanRev_append_of_none suf.reverse _ (fun x hx => hs x (List.mem_reverse.mp hx))]
  simp [scanRev, hm]

theorem C1_witness :
    parseProgressFromLogs
      ([.str "a", .str "PROGRESS:10", .str "b"] ++ .str "PROGRESS:87" :: [.str "c"])
      = some (clamp100 87) ∧
    parseProgressFromLogs
      [.str "a", .str "PROGRESS:10", .str "b", .str "PROGRESS:87", .str "c"]
      = some 87 :=
  C1_latest_marker_wins [.str "a", .str "PROGRESS:10", .str "b"] [.str "c"]
    (.str "PROGRESS:87") 87 (by decide) (by decide)

/-- Claim C6: the extractor returns `null` exactly when no line matches the
marker pattern, and a number exactly when some line matches. -/
theorem C6_none_iff_no_marker (logs : List LogEntry) :
    (parseProgressFromLogs logs = none ↔ ∀ e ∈ logs, lineMarker e = none) ∧
    ((∃ v, parseProgressFromLogs logs = some v) ↔
      ∃ e ∈ logs, lineMarker e ≠ none) := by
  refine ⟨parseProgressFromLogs_eq_none_iff logs, ?_, ?_⟩
  · rintro ⟨v, hv⟩
    by_contra hall
    push_neg at hall
    rw [(parseProgressFromLogs_eq_none_iff logs).mpr hall] at hv
    exact Option.noConfusion hv
  · rintro ⟨e, he, hm⟩
    cases h : parseProgressFromLogs logs with
    | some v => exact ⟨v, rfl⟩
    | none => exact absurd ((parseProgressFromLogs_eq_none_iff logs).mp h e he) hm

/-- Claim C9: the extractor is total on arbitrary log arrays: non-string
entries are skipped, every returned value is at most 100, and a marker
with an oversized digit run such as `PROGRESS:999` clamps to 100. -/
theorem C9_total_and_clamped :
    (∀ (logs : List LogEntry) (v : Nat),
      parseProgressFromLogs logs = some v → v ≤ 100) ∧
    (∀ pre suf : List LogEntry,
      parseProgressFromLogs (pre ++ LogEntry.other :: suf)
        = parseProgressFromLogs (pre ++ suf)) ∧
    parseProgressFromLogs [.str "PROGRESS:999"] = some 100 := by
  refine ⟨?_, ?_, by decide⟩
  · intro logs v h
    unfold parseProgressFromLogs at h
    by_cases he : logs.isEmpty
    · rw [if_pos he] at h; exact absurd h (by simp)
    · rw [if_neg he] at h
      exact scanRev_le_100 _ _ h
  · intro pre suf
    unfold parseProgressFromLogs
    rw [if_neg (by simp)]
    have hrev : (pre ++ LogEntry.other :: suf).reverse
        = suf.reverse ++ LogEntry.other :: pre.reverse := by
      rw [List.reverse_append, List.reverse_cons, List.append_assoc]
      exact rfl
    rw [hrev, scanRev_skip_other]
    cases hps : (pre ++ suf).isEmpty
    · rw [if_neg (by simp [hps])]
      rw [List.reverse_append]
    · rw [if_pos rfl]
      rcases List.append_eq_nil.mp (List.isEmpty_iff.mp hps) with ⟨h1, h2⟩
      subst h1; subst h2
      rfl

/-- Claim C2: with no marker in the logs the heuristic estimate applies
(`queued`→5, `running`→`min(95, 5+2×lines)`, `done`/`error`→100; 10
marker-free lines while running yield 25); with a marker, the marker
value is used. -/
theorem C2_heuristic_estimate (logs : List LogEntry)
    (h : parseProgressFromLogs logs = none) :
    (enrichedEstimate (some "queued") logs = 5 ∧
     enrichedEstimate (some "running") logs = min 95 (5 + 2 * logs.length) ∧
     enrichedEstimate (some "done") logs = 100 ∧
     enrichedEstimate (some "error") logs = 100) ∧
    (∀ (l : List LogEntry) (st : Option String) (p : Nat),
      parseProgressFromLogs l = some p → enrichedEstimate st l = p) ∧
    enrichedEstimate (some "running") (List.replicate 10 (.str "line")) = 25 := by
  refine ⟨⟨?_, ?_, ?_, ?_⟩, ?_, by decide⟩
  · simp [enrichedEstimate, estimateProgress, h, jsStateOr]
  · simp [enrichedEstimate, estimateProgress, h, jsStateOr, jsLogCount]
    ring_nf
  · simp [enrichedEstimate, estimateProgress, h, jsStateOr]
  · simp [enrichedEstimate, estimateProgress, h, jsStateOr]
  · intro l st p hp
    simp [enrichedEstimate, estimateProgress, hp]

theorem C2_witness :
    (enrichedEstimate (some "queued") [.str "a"] = 5 ∧
     enrichedEstimate (some "running") [.str "a"] = min 95 (5 + 2 * [LogEntry.str "a"].length) ∧
     enrichedEstimate (some "done") [.str "a"] = 100 ∧
     enrichedEstimate (some "error") [.str "a"] = 100) ∧
    (∀ (l : List LogEntry) (st : Option String) (p : Nat),
      parseProgressFromLogs l = some p → enrichedEstimate st l = p) ∧
    enrichedEstimate (some "running") (List.replicate 10 (.str "line")) = 25 :=
  C2_heuristic_estimate [.str "a"] (by decide)

/-- Claim C3: a non-blank tag is accepted iff it is at most 128
characters and matches `^[A-Za-z0-9_][A-Za-z0-9_.-]*$`; `"release-1.0"`
is accepted, `"bad tag"` is rejected, and any 129-character tag is
rejected. -/
theorem C3_tag_validation (raw : String) (h : jsTrim raw ≠ "") :
    ((validateTag raw).1 = true ↔
      (jsTrim raw).length ≤ 128 ∧ tagRegexTest (jsTrim raw) = true) ∧
    (validateTag "release-1.0").1 = true ∧
    (validateTag "bad tag").1 = false ∧
    (∀ t : String, jsTrim t = t → t.length = 129 → (validateTag t).1 = false) := by
  refine ⟨?_, by decide, by decide, ?_⟩
  · unfold validateTag
    rw [if_neg (fun hlen => h (by
      cases hd : (jsTrim raw).data with
      | nil =>
        cases hj : jsTrim raw with
        | mk d => rw [hj] at hd; simp at hd; rw [hd]
      | cons c rest =>
        exfalso
        rw [String.length, hd] at hlen
        simp at hlen))]
    simp [Bool.and_eq_true, decide_eq_true_eq]
  · intro t ht hlen
    unfold validateTag
    rw [ht, if_neg (by omega)]
    simp [hlen]

theorem C3_witness :
    ((validateTag "release-1.0").1 = true ↔
      (jsTrim "release-1.0").length ≤ 128 ∧
        tagRegexTest (jsTrim "release-1.0") = true) ∧
    (validateTag "release-1.0").1 = true ∧
    (validateTag "bad tag").1 = false ∧
    (∀ t : String, jsTrim t = t → t.length = 129 → (validateTag t).1 = false) :=
  C3_tag_validation "release-1.0" (by decide)

/-! ### Lemmas about decimal rendering -/

theorem isDigitCh_digitChar (d : Nat) (h : d ≤ 9) :
    isDigitCh (digitChar d) = true := by
  interval_cases d <;> decide

theorem natDigits_ne_nil (n : Nat) : natDigits n ≠ [] := by
  unfold natDigits
  by_cases h : n < 10 <;> simp [h]

theorem natDigits_all_digit (n : Nat) :
    ∀ c ∈ natDigits n, isDigitCh c = true := by
  induction n using Nat.strong_induction_on with
  | _ n ih =>
    unfold natDigits
    by_cases h : n < 10
    · rw [dif_pos h]
      intro c hc
      simp at hc
      subst hc
      exact isDigitCh_digitChar n (by omega)
    · rw [dif_neg h]
      intro c hc
      rcases List.mem_append.mp hc with h1 | h2
      · exact ih (n / 10) (Nat.div_lt_self (by omega) (by omega)) c h1
      · simp at h2
        subst h2
        exact isDigitCh_digitChar (n % 10) (by omega)

theorem natDigits_length_pow (k : Nat) :
    ∀ n, 10 ^ k ≤ n → n < 10 ^ (k + 1) → (natDigits n).length = k + 1 := by
  induction k with
  | zero =>
    intro n _ h2
    have h10 : n < 10 := by simpa using h2
    unfold natDigits
    rw [dif_pos h10]
    rfl
  | succ k ih =>
    intro n h1 h2
    have hge : ¬ n < 10 := by
      have hp : (10:Nat) ≤ 10 ^ (k + 1) :=
        Nat.le_self_pow (by omega) 10
      omega
    unfold natDigits
    rw [dif_neg hge, List.length_append]
    have hdiv1 : 10 ^ k ≤ n / 10 := by
      rw [Nat.le_div_iff_mul_le (by omega)]
      calc 10 ^ k * 10 = 10 ^ (k + 1) := (pow_succ 10 k).symm
        _ ≤ n := h1
    have hdiv2 : n / 10 < 10 ^ (k + 1) := by
      rw [Nat.div_lt_iff_lt_mul (by omega)]
      calc n < 10 ^ (k + 2) := h2
        _ = 10 ^ (k + 1) * 10 := pow_succ 10 (k + 1)
    rw [ih (n / 10) hdiv1 hdiv2]
    simp

theorem pad2_two_digits (n : Nat) (h : n ≤ 99) :
    (pad2 n).data.length = 2 ∧ ∀ c ∈ (pad2 n).data, isDigitCh c = true := by
  have hdata : (pad2 n).data
      = List.replicate (2 - (natDigits n).length) '0' ++ natDigits n := rfl
  by_cases h10 : n < 10
  · have hlen : (natDigits n).length = 1 := by
      unfold natDigits
      rw [dif_pos h10]
      rfl
    refine ⟨by simp [hdata, hlen], ?_⟩
    intro c hc
    rw [hdata, hlen] at hc
    rcases List.mem_append.mp hc with h1 | h2
    · rw [List.eq_of_mem_replicate h1]
      decide
    · exact natDigits_all_digit n c h2
  · have hlen : (natDigits n).length = 2 := by
      have := natDigits_length_pow 1 n (by simpa using Nat.not_lt.mp h10)
        (by norm_num; omega)
      simpa using this
    refine ⟨by simp [hdata, hlen], ?_⟩
    intro c hc
    rw [hdata, hlen] at hc
    simp at hc
    exact natDigits_all_digit n c hc

theorem natDigits_year (y : Nat) (h1 : 1000 ≤ y) (h2 : y ≤ 9999) :
    (natDigits y).length = 4 :=
  natDigits_length_pow 3 y (by norm_num; omega) (by norm_num; omega)

/-! ### Character-class lemmas -/

theorem isTagHeadCh_of_digit (c : Char) (h : isDigitCh c = true) :
    isTagHeadCh c = true := by
  simp only [isDigitCh] at h
  simp [isTagHeadCh, h]

theorem isTagCh_of_digit (c : Char) (h : isDigitCh c = true) :
    isTagCh c = true := by
  simp [isTagCh, isTagHeadCh_of_digit c h]

theorem ws_false_of_digit (c : Char) (h : isDigitCh c = true) :
    isJsWhitespace c = false := by
  by_contra hw
  rw [Bool.not_eq_false] at hw
  simp only [isJsWhitespace, Bool.or_eq_true, decide_eq_true_eq] at hw
  casesm* _ ∨ _ <;> subst_vars <;> exact absurd h (by decide)

theorem dropWhile_eq_self_of {α : Type} (p : α → Bool) (l : List α)
    (h : ∀ c ∈ l, p c = false) : l.dropWhile p = l := by
  cases l with
  | nil => rfl
  | cons c r =>
    rw [List.dropWhile_cons, h c (by simp)]
    simp

theorem jsTrim_eq_self (s : String)
    (h : ∀ c ∈ s.data, isJsWhitespace c = false) : jsTrim s = s := by
  unfold jsTrim
  rw [dropWhile_eq_self_of _ _ h]
  rw [dropWhile_eq_self_of _ _ (fun c hc => h c (List.mem_reverse.mp hc))]
  rw [List.reverse_reverse]

theorem matchesTimestampTagL_of (a b : List Char)
    (ha : a.length = 8) (hb : b.length = 6)
    (hda : ∀ c ∈ a, isDigitCh c = true) (hdb : ∀ c ∈ b, isDigitCh c = true) :
    matchesTimestampTagL (a ++ '-' :: b) = true := by
  unfold matchesTimestampTagL
  have h15 : (a ++ '-' :: b).length = 15 := by simp [ha, hb]
  have htake : (a ++ '-' :: b).take 8 = a := List.take_left' ha
  have hdrop : (a ++ '-' :: b).drop 8 = '-' :: b := List.drop_left' ha
  have hdrop9 : (a ++ '-' :: b).drop 9 = b := by
    have h91 : (9:Nat) = 8 + 1 := rfl
    rw [h91, ← List.drop_drop, hdrop]
    rfl
  rw [h15, htake, hdrop, hdrop9]
  simp only [Bool.and_eq_true, List.all_eq_true, decide_eq_true_eq,
    List.head?_cons]
  exact ⟨⟨⟨trivial, hda⟩, trivial⟩, hdb⟩

theorem tagRegexTest_mk_cons (c : Char) (rest : List Char) :
    tagRegexTest (String.mk (c :: rest)) = (isTagHeadCh c && rest.all isTagCh) :=
  rfl

/-- Claim C4: a submission whose tag is blank after trimming gets the
auto-generated UTC `yyyyMMdd-HHmmss` tag, and every generated tag matches

`^\d{8}-\d{6}$` and passes tag validation. -/
theorem C4_blank_tag_autogenerated (tag : String) (d : UTCTime)
    (hblank : jsTrim tag = "")
    (hy1 : 1000 ≤ d.fullYear) (hy2 : d.fullYear ≤ 9999)
    (hmo : d.month0 ≤ 11) (hdt : d.date ≤ 31) (hho : d.hours ≤ 23)
    (hmi : d.minutes ≤ 59) (hse : d.seconds ≤ 59) :
    submitFinalTag tag d = some (generateTag d) ∧
    matchesTimestampTag (generateTag d) = true ∧
    (validateTag (generateTag d)).1 = true := by
  have hy := natDigits_year d.fullYear hy1 hy2
  have hm2 := pad2_two_digits (d.month0 + 1) (by omega)
  have hd2 := pad2_two_digits d.date (by omega)
  have hh2 := pad2_two_digits d.hours (by omega)
  have hmi2 := pad2_two_digits d.minutes (by omega)
  have hs2 := pad2_two_digits d.seconds (by omega)
  have hdata : (generateTag d).data =
      (natDigits d.fullYear ++
        ((pad2 (d.month0 + 1)).data ++ (pad2 d.date).data)) ++
      '-' :: ((pad2 d.hours).data ++
        ((pad2 d.minutes).data ++ (pad2 d.seconds).data)) := by
    simp [generateTag, natToString, String.data_append,
      show ("-" : String).data = ['-'] from rfl]
  have hlen_a : (natDigits d.fullYear ++
      ((pad2 (d.month0 + 1)).data ++ (pad2 d.date).data)).length = 8 := by
    simp [List.length_append, hy, hm2.1, hd2.1]
  have hlen_b : ((pad2 d.hours).data ++
      ((pad2 d.minutes).data ++ (pad2 d.seconds).data)).length = 6 := by
    simp [List.length_append, hh2.1, hmi2.1, hs2.1]
  have hdig_a : ∀ c ∈ natDigits d.fullYear ++
      ((pad2 (d.month0 + 1)).data ++ (pad2 d.date).data),
      isDigitCh c = true := by
    intro c hc
    rcases List.mem_append.mp hc with h1 | h1
    · exact natDigits_all_digit _ c h1
    · rcases List.mem_append.mp h1 with h2 | h2
      · exact hm2.2 c h2
      · exact hd2.2 c h2
  have hdig_b : ∀ c ∈ (pad2 d.hours).data ++
      ((pad2 d.minutes).data ++ (pad2 d.seconds).data),
      isDigitCh c = true := by
    intro c hc
    rcases List.mem_append.mp hc with h1 | h1
    · exact hh2.2 c h1
    · rcases List.mem_append.mp h1 with h2 | h2
      · exact hmi2.2 c h2
      · exact hs2.2 c h2
  have hmatch : matchesTimestampTag (generateTag d) = true := by
    unfold matchesTimestampTag
    rw [hdata]
    exact matchesTimestampTagL_of _ _ hlen_a hlen_b hdig_a hdig_b
  have hlenEq : (generateTag d).length = 15 := by
    have hl : (generateTag d).data.length = 15 := by
      rw [hdata]
      simp only [List.length_append, List.length_cons] at hlen_a hlen_b ⊢
      omega
    exact hl
  have hnws : ∀ c ∈ (generateTag d).data, isJsWhitespace c = false := by
    rw [hdata]
    intro c hc
    rcases List.mem_append.mp hc with h1 | h1
    · exact ws_false_of_digit c (hdig_a c h1)
    · rcases List.mem_cons.mp h1 with rfl | h2
      · decide
      · exact ws_false_of_digit c (hdig_b c h2)
  have htrim : jsTrim (generateTag d) = generateTag d := jsTrim_eq_self _ hnws
  have hstr : generateTag d = String.mk
      ((natDigits d.fullYear ++
        ((pad2 (d.month0 + 1)).data ++ (pad2 d.date).data)) ++
      '-' :: ((pad2 d.hours).data ++
        ((pad2 d.minutes).data ++ (pad2 d.seconds).data))) :=
    congrArg String.mk hdata
  have hreg : tagRegexTest (generateTag d) = true := by
    obtain ⟨c0, A', hA⟩ : ∃ c0 A', natDigits d.fullYear = c0 :: A' := by
      cases hA : natDigits d.fullYear with
      | nil => exact absurd hA (natDigits_ne_nil _)
      | cons x xs => exact ⟨x, xs, rfl⟩
    rw [hstr, hA]
    simp only [List.cons_append]
    rw [tagRegexTest_mk_cons]
    have hc0 : isTagHeadCh c0 = true :=
      isTagHeadCh_of_digit c0 (hdig_a c0 (by rw [hA]; simp))
    rw [hc0, Bool.true_and, List.all_eq_true]
    intro x hx
    rcases List.mem_append.mp hx with h1 | h1
    · rcases List.mem_append.mp h1 with h2 | h2
      · exact isTagCh_of_digit x
          (hdig_a x (List.mem_append_left _ (by rw [hA]; simp [h2])))
      · exact isTagCh_of_digit x (hdig_a x (List.mem_append_right _ h2))
    · rcases List.mem_cons.mp h1 with rfl | h2
      · decide
      · exact isTagCh_of_digit x (hdig_b x h2)
  refine ⟨?_, hmatch, ?_⟩
  · simp [submitFinalTag, validateTag, hblank]
  · unfold validateTag
    simp only [htrim]
    rw [if_neg (by rw [hlenEq]; omega)]
    simp [hlenEq, hreg]

theorem C4_witness :
    submitFinalTag "" ⟨2026, 9, 11, 20, 43, 0⟩
      = some (generateTag ⟨2026, 9, 11, 20, 43, 0⟩) ∧
    matchesTimestampTag (generateTag ⟨2026, 9, 11, 20, 43, 0⟩) = true ∧
    (validateTag (generateTag ⟨2026, 9, 11, 20, 43, 0⟩)).1 = true :=
  C4_blank_tag_autogenerated "" ⟨2026, 9, 11, 20, 43, 0⟩ (by decide)
    (by decide) (by decide) (by decide) (by decide) (by decide) (by decide)
    (by decide)

theorem jsCompare_le_iff (a b : JobView) :
    jsCompare a b ≤ 0 ↔
      (stateOrder a.state < stateOrder b.state ∨
        (stateOrder a.state = stateOrder b.state ∧
          tsVal b.timestamp ≤ tsVal a.timestamp)) := by
  unfold jsCompare
  split <;> rename_i h <;> omega

/-- Claim C5: the presentation layer sorts `GET /builds` by state priority
`running < queued < done < error` and, inside one state class, by
descending timestamp: the result is a permutation of the input that is
pairwise ordered by that rule. -/
theorem C5_sorted_by_state_then_recency (l : List JobView) :
    (sortJobs l).Perm l ∧
    (sortJobs l).Pairwise (fun a b =>
      stateOrder a.state < stateOrder b.state ∨
      (stateOrder a.state = stateOrder b.state ∧
        tsVal b.timestamp ≤ tsVal a.timestamp)) := by
  constructor
  · exact List.mergeSort_perm l _
  · have hs := @List.sorted_mergeSort JobView
      (fun a b : JobView => decide (jsCompare a b ≤ 0))
      (fun a b c hab hbc => by
        rw [decide_eq_true_eq, jsCompare_le_iff] at hab hbc ⊢
        omega)
      (fun a b => by
        rw [Bool.or_eq_true, decide_eq_true_eq, decide_eq_true_eq,
          jsCompare_le_iff, jsCompare_le_iff]
        omega)
      l
    refine hs.imp ?_
    intro a b hab
    rwa [decide_eq_true_eq, jsCompare_le_iff] at hab

/-- Claim C10 is refuted at the state `"toString"`: the JS lookup
`stateOrder["toString"]` finds the inherited `Object.prototype.toString`
member, so the `?? 4` default never fires (the assigned priority is not
4), and the comparator between an `error` job and such a job subtracts a
function from a number, yielding `NaN`, which the sort treats as 0 — the
error job is not ordered before it. -/
theorem C10_counterexample :
    statePriorityJs (some "toString") ≠ JsPriority.num 4 ∧
    ¬ jsCompareFull ⟨some "error", some 5⟩ ⟨some "toString", some 0⟩ < 0 := by
  decide

/-- Claim C10, amended: jobs with a state outside
`{running,queued,done,error}` that does not name an `Object.prototype`
member get priority 4, hence sort after all `error` jobs; a state naming
an `Object.prototype` member (e.g. `"toString"`) yields the inherited
member instead and the comparator treats the pair as equal (`NaN` → 0)
against any numeric-priority job; a missing timestamp is treated as 0
and thus sorts to the oldest position among positive timestamps of its
state class. -/
theorem C10_priority_default_amended (s : String) (a b : JobView) (t : Int)
    (hs : s ∉ ["running", "queued", "done", "error"])
    (hp : objectProtoMember s = false) :
    statePriorityJs (some s) = JsPriority.num 4 ∧
    statePriorityJs none = JsPriority.num 4 ∧
    (a.state = some "error" → statePriorityJs b.state = JsPriority.num 4 →
      jsCompareFull a b < 0) ∧
    (objectProtoMember "toString" = true ∧
      jsCompareFull ⟨some "error", some 5⟩ ⟨some "toString", some 0⟩ = 0) ∧
    tsVal none = 0 ∧
    (statePriorityJs a.state = statePriorityJs b.state → a.timestamp = none →
      b.timestamp = some t → 0 < t → jsCompareFull b a < 0) := by
  simp only [List.mem_cons, List.not_mem_nil, or_false, not_or] at hs
  obtain ⟨h1, h2, h3, h4⟩ := hs
  refine ⟨by simp [statePriorityJs, h1, h2, h3, h4, hp], rfl, ?_, by decide,
    rfl, ?_⟩
  · intro ha hb
    have hpa : statePriorityJs a.state = JsPriority.num 3 := by
      simp [statePriorityJs, ha]
    unfold jsCompareFull
    rw [hpa, hb]
    norm_num
  · intro hord hat hbt hpos
    unfold jsCompareFull
    rw [hord]
    cases hpb : statePriorityJs b.state <;>
      simp [hpb, hat, hbt, tsVal] <;> omega

theorem C10_witness :
    statePriorityJs (some "weird") = JsPriority.num 4 ∧
    statePriorityJs none = JsPriority.num 4 ∧
    ((⟨some "error", none⟩ : JobView).state = some "error" →
      statePriorityJs (⟨some "weird", some 7⟩ : JobView).state
        = JsPriority.num 4 →
      jsCompareFull ⟨some "error", none⟩ ⟨some "weird", some 7⟩ < 0) ∧
    (objectProtoMember "toString" = true ∧
      jsCompareFull ⟨some "error", some 5⟩ ⟨some "toString", some 0⟩ = 0) ∧
    tsVal none = 0 ∧
    (statePriorityJs (⟨some "error", none⟩ : JobView).state
        = statePriorityJs (⟨some "weird", some 7⟩ : JobView).state →
      (⟨some "error", none⟩ : JobView).timestamp = none →
      (⟨some "weird", some 7⟩ : JobView).timestamp = some 7 → (0:Int) < 7 →
      jsCompareFull ⟨some "weird", some 7⟩ ⟨some "error", none⟩ < 0) :=
  C10_priority_default_amended "weird"
    ⟨some "error", none⟩ ⟨some "weird", some 7⟩ 7 (by decide) (by decide)

theorem reenqueue_partition_aux (enq : Nat → Bool) (jobs : List RJob) :
    (jobs.filterMap (fun j =>
      match reenqueue_one enq j with
      | .requeued => some j.id
      | _ => none)).length
    + (jobs.filterMap (fun j =>
      match reenqueue_one enq j with
      | .skipped r => some (j.id, r)
      | _ => none)).length
    + (jobs.filterMap (fun j =>
      match reenqueue_one enq j with
      | .errored e => some (j.id, e)
      | _ => none)).length = jobs.length := by
  induction jobs with
  | nil => rfl
  | cons j' rest ih =>
    simp only [List.filterMap_cons]
    cases h : reenqueue_one enq j' <;> simp only [h] <;>
      simp only [List.length_cons] <;> omega

theorem reenqueue_all_partition (enq : Nat → Bool) (jobs : List RJob) :
    (reenqueue_all enq jobs).requeued.length
      + (reenqueue_all enq jobs).skipped.length
      + (reenqueue_all enq jobs).errors.length = jobs.length := by
  unfold reenqueue_all
  exact reenqueue_partition_aux enq jobs

/-- Claim C7: reenqueue_all partitions every listed job into requeued /
skipped / errored with aggregate counts; an eligible job whose
resubmission succeeds is requeued no matter what happens to any other
job; and on the 5-job example (2 `error`, 1 stalled `running`, 1 `done`,
1 `queued`) the counts are `{found:5, requeued:3, skipped:2, errors:0}`
with distinct skip reasons for the `done` and `queued` jobs. -/
theorem C7_reenqueue_all_partitions (enq : Nat → Bool) (jobs : List RJob)
    (j : RJob) (hj : j ∈ jobs) (helig : eligible j = true)
    (henq : enq j.id = true) :
    j.id ∈ (reenqueue_all enq jobs).requeued ∧
    (reenqueue_all enq jobs).found = jobs.length ∧
    (reenqueue_all enq jobs).requeued.length
      + (reenqueue_all enq jobs).skipped.length
      + (reenqueue_all enq jobs).errors.length = jobs.length ∧
    reenqueue_all (fun _ => true)
        [⟨1, .error, false⟩, ⟨2, .error, false⟩, ⟨3, .running, true⟩,
         ⟨4, .done, false⟩, ⟨5, .queued, false⟩]
      = ⟨5, [1, 2, 3],
          [(4, "job already done"), (5, "job already queued")], []⟩ ∧
    ("job already done" : String) ≠ "job already queued" := by
  refine ⟨?_, rfl, reenqueue_all_partition enq jobs, by decide, by decide⟩
  have hone : reenqueue_one enq j = .requeued := by
    unfold reenqueue_one
    rw [if_pos helig, if_pos henq]
  unfold reenqueue_all
  simp only [List.mem_filterMap]
  exact ⟨j, hj, by rw [hone]⟩

theorem C7_witness :
    (1 : Nat) ∈ (reenqueue_all (fun _ => true)
      [⟨1, .error, false⟩, ⟨2, .error, false⟩, ⟨3, .running, true⟩,
       ⟨4, .done, false⟩, ⟨5, .queued, false⟩]).requeued ∧
    (reenqueue_all (fun _ => true)
      [⟨1, .error, false⟩, ⟨2, .error, false⟩, ⟨3, .running, true⟩,
       ⟨4, .done, false⟩, ⟨5, .queued, false⟩]).found
      = [(⟨1, .error, false⟩ : RJob), ⟨2, .error, false⟩,
         ⟨3, .running, true⟩, ⟨4, .done, false⟩, ⟨5, .queued, false⟩].length ∧
    (reenqueue_all (fun _ => true)
      [⟨1, .error, false⟩, ⟨2, .error, false⟩, ⟨3, .running, true⟩,
       ⟨4, .done, false⟩, ⟨5, .queued, false⟩]).requeued.length
      + (reenqueue_all (fun _ => true)
      [⟨1, .error, false⟩, ⟨2, .error, false⟩, ⟨3, .running, true⟩,
       ⟨4, .done, false⟩, ⟨5, .queued, false⟩]).skipped.length
      + (reenqueue_all (fun _ => true)
      [⟨1, .error, false⟩, ⟨2, .error, false⟩, ⟨3, .running, true⟩,
       ⟨4, .done, false⟩, ⟨5, .queued, false⟩]).errors.length
      = [(⟨1, .error, false⟩ : RJob), ⟨2, .error, false⟩,
         ⟨3, .running, true⟩, ⟨4, .done, false⟩, ⟨5, .queued, false⟩].length ∧
    reenqueue_all (fun _ => true)
        [⟨1, .error, false⟩, ⟨2, .error, false⟩, ⟨3, .running, true⟩,
         ⟨4, .done, false⟩, ⟨5, .queued, false⟩]
      = ⟨5, [1, 2, 3],
          [(4, "job already done"), (5, "job already queued")], []⟩ ∧
    ("job already done" : String) ≠ "job already queued" :=
  C7_reenqueue_all_partitions (fun _ => true)
    [⟨1, .error, false⟩, ⟨2, .error, false⟩, ⟨3, .running, true⟩,
     ⟨4, .done, false⟩, ⟨5, .queued, false⟩]
    ⟨1, .error, false⟩ (by decide) (by decide) (by decide)

end DockerBuilder
